import Mathlib

attribute [local semireducible] Rat.mul Rat.inv Rat.add Rat.sub

/-!
Verification of the detection pipeline of the object-detection chrome
extension.  The definitions below are shallow embeddings of the JavaScript
in `chrome-extension/detection/detect.js` and
`chrome-extension/detection/detection.js`; JS floating-point numbers are
modelled by exact rationals, JS integers by `Nat`/`Int`, and the page's
single-threaded event loop by an explicit step function over an event list.
-/

/-! ## Adaptive scheduler (detect.js, lines 4-47)

`DETECTION_INTERVAL = 200`, `MIN_INTERVAL = 0`, `MAX_INTERVAL = 500`,
`MAX_SAMPLES = 10`, module state `frameTimings` passed explicitly. -/

/-- `getDetectionInterval()` from detect.js lines 16-34: with at least five
recorded samples return the average times 1.2 clamped by
`Math.max(MIN_INTERVAL, Math.min(MAX_INTERVAL, x))`, otherwise the
fallback `DETECTION_INTERVAL = 200`. -/
def getDetectionInterval (frameTimings : List ℚ) : ℚ :=
  if 5 ≤ frameTimings.length then
    let avgTime := (frameTimings.foldl (fun sum time => sum + time) (0 : ℚ)) / (frameTimings.length : ℚ)
    max 0 (min 500 (avgTime * (6/5 : ℚ)))
  else
    200

/-- `recordFrameTiming(time)` from detect.js lines 40-47: push the sample and
drop the oldest one once more than `MAX_SAMPLES = 10` are stored.  (This
export is never invoked by detection.js, so in the wired-up page the
timing window stays empty; the operation is still part of the module.) -/
def recordFrameTiming (frameTimings : List ℚ) (time : ℚ) : List ℚ :=
  let pushed := frameTimings ++ [time]
  if 10 < pushed.length then pushed.drop 1 else pushed

/-! ## Non-maximum suppression (detect.js, lines 160-170)

The suppression itself is `tf.image.nonMaxSuppressionAsync`, whose parameter
order is `(boxes, scores, maxOutputSize, iouThreshold, scoreThreshold)` and
whose CPU implementation (tfjs `nonMaxSuppressionImpl` with
`softNmsSigma = 0`) is: keep the candidates with score strictly above
`scoreThreshold`, sort them ascending by score with a stable sort and pop
from the end (so equal scores are visited latest-original-index first), and
select a candidate iff its IoU with every already selected box is strictly
below `iouThreshold`, stopping at `maxOutputSize` selections. -/

/-- A box row of the `boxes` tensor, laid out `[y1, x1, y2, x2]` as built by
detect.js lines 134-141. -/
structure CBox where
  y1 : ℚ
  x1 : ℚ
  y2 : ℚ
  x2 : ℚ
deriving DecidableEq

/-- tfjs `intersectionOverUnion`: areas from min/max corners, zero when either
box is degenerate, otherwise intersection over union. -/
def tfIou (a b : CBox) : ℚ :=
  let yminA := min a.y1 a.y2
  let xminA := min a.x1 a.x2
  let ymaxA := max a.y1 a.y2
  let xmaxA := max a.x1 a.x2
  let yminB := min b.y1 b.y2
  let xminB := min b.x1 b.x2
  let ymaxB := max b.y1 b.y2
  let xmaxB := max b.x1 b.x2
  let areaA := (ymaxA - yminA) * (xmaxA - xminA)
  let areaB := (ymaxB - yminB) * (xmaxB - xminB)
  if areaA ≤ 0 ∨ areaB ≤ 0 then 0
  else
    let iymin := max yminA yminB
    let ixmin := max xminA xminB
    let iymax := min ymaxA ymaxB
    let ixmax := min xmaxA xmaxB
    let interArea := max (iymax - iymin) 0 * max (ixmax - ixmin) 0
    interArea / (areaA + areaB - interArea)

/-- A suppression candidate: original index, score and box. -/
structure Cand where
  idx : ℕ
  score : ℚ
  box : CBox
deriving DecidableEq

/-- Pair every box with its score and original index. -/
def mkCands (boxes : List CBox) (scores : List ℚ) : List Cand :=
  ((boxes.zip scores).enum).map (fun p => ⟨p.1, p.2.2, p.2.1⟩)

/-- Stable ascending insertion by score: an element equal in score to an
already placed one goes after it, reproducing the stable `Array.sort` of
tfjs before the pop-from-the-end loop. -/
def insertAsc (c : Cand) : List Cand → List Cand
  | [] => [c]
  | x :: xs => if c.score < x.score then c :: x :: xs else x :: insertAsc c xs

/-- Stable descending insertion by score: ties keep original order.  Used by
the reference suppressor from the claim wording. -/
def insertDesc (c : Cand) : List Cand → List Cand
  | [] => [c]
  | x :: xs => if x.score < c.score then c :: x :: xs else x :: insertDesc c xs

/-- Greedy selection loop shared by both suppressors: walk the candidates in
processing order, stop once `maxOut` boxes are selected, and select a
candidate iff its IoU with every already selected box is strictly below
`iouThr` (tfjs ignores a candidate when some IoU is `≥ iouThreshold`).
Returns the selected original indices in keep order. -/
def nmsPick (iouThr : ℚ) (maxOut : ℕ) : List Cand → List Cand → List ℕ
  | [], selected => (selected.map (fun s => s.idx)).reverse
  | c :: rest, selected =>
    if maxOut ≤ selected.length then (selected.map (fun s => s.idx)).reverse
    else if selected.all (fun s => tfIou c.box s.box < iouThr) then
      nmsPick iouThr maxOut rest (c :: selected)
    else
      nmsPick iouThr maxOut rest selected

/-- tfjs `nonMaxSuppressionAsync` semantics (hard NMS, `softNmsSigma = 0`):
filter scores strictly above `scoreThr`, process in descending score order
with ties visited latest-original-index first (ascending stable sort,
popped from the end), greedily select below-`iouThr` candidates. -/
def tfjsNms (boxes : List CBox) (scores : List ℚ) (maxOutputSize : ℕ)
    (iouThr scoreThr : ℚ) : List ℕ :=
  let cands := (mkCands boxes scores).filter (fun c => scoreThr < c.score)
  let order := (cands.foldl (fun acc c => insertAsc c acc) []).reverse
  nmsPick iouThr maxOutputSize order []

/-- The exact call made by `processFrame` (detect.js lines 161-165):
`nonMaxSuppressionAsync(boxes, scores, 100, confidenceThreshold, iouThreshold)`
with `confidenceThreshold = 0.4` and `iouThreshold = 0.45`, i.e. the named
constants land in the API's `iouThreshold` and `scoreThreshold` slots
respectively. -/
def nmsAsCalled (boxes : List CBox) (scores : List ℚ) : List ℕ :=
  tfjsNms boxes scores 100 (2/5 : ℚ) (9/20 : ℚ)

/-- Reference suppressor, written from the claim/spec wording (for the
refinement comparison of C1): discard candidates with score below 0.4,
sort the rest by score descending with stable ties (original order kept),
greedily keep a candidate only when its IoU with every kept one is
strictly below 0.45, stop at 100 kept. -/
def refSuppressor (boxes : List CBox) (scores : List ℚ) : List ℕ :=
  let cands := (mkCands boxes scores).filter (fun c => (2/5 : ℚ) ≤ c.score)
  let order := cands.foldl (fun acc c => insertDesc c acc) []
  nmsPick (9/20 : ℚ) 100 order []

/-! ## Letterbox preprocessing and coordinate unpadding
(detect.js lines 80-108, detection.js lines 294-300) -/

/-- JavaScript `Math.round`: round half toward positive infinity. -/
def jsRound (x : ℚ) : ℤ := ⌊x + 1 / 2⌋

/-- detect.js line 80: `scale = Math.min(modelWidth / w, modelHeight / h)`
with model size 640×640. -/
def scaleFor (w h : ℕ) : ℚ := min ((640 : ℚ) / w) ((640 : ℚ) / h)

/-- detect.js line 81: `newWidth = Math.round(w * scale)`. -/
def newWidthFor (w h : ℕ) : ℤ := jsRound (w * scaleFor w h)

/-- detect.js line 82: `newHeight = Math.round(h * scale)`. -/
def newHeightFor (w h : ℕ) : ℤ := jsRound (h * scaleFor w h)

/-- detect.js line 88: `padTop = Math.floor((modelHeight - newHeight) / 2)`. -/
def padTopFor (w h : ℕ) : ℤ := ⌊((640 : ℚ) - newHeightFor w h) / 2⌋

/-- detect.js line 89: `padLeft = Math.floor((modelWidth - newWidth) / 2)`. -/
def padLeftFor (w h : ℕ) : ℤ := ⌊((640 : ℚ) - newWidthFor w h) / 2⌋

/-- Place an original-frame x coordinate into model space with the
preprocessor's own scale and left pad. -/
def toModelX (w h : ℕ) (ux : ℚ) : ℚ := ux * scaleFor w h + padLeftFor w h

/-- Place an original-frame y coordinate into model space with the
preprocessor's own scale and top pad. -/
def toModelY (w h : ℕ) (uy : ℚ) : ℚ := uy * scaleFor w h + padTopFor w h

/-- detection.js lines 297-300: `unpadX = (x - padLeft) / scale`. -/
def unpadX (w h : ℕ) (x : ℚ) : ℚ := (x - padLeftFor w h) / scaleFor w h

/-- detection.js lines 297-300: `unpadY = (y - padTop) / scale`. -/
def unpadY (w h : ℕ) (y : ℚ) : ℚ := (y - padTopFor w h) / scaleFor w h

/-! ## Object tracking (detect.js lines 224-262, detection.js lines 278-291) -/

/-- A generated detection id.  detection.js line 287 builds the string
`${class}_${Math.round(x1*100)}_${Math.round(y1*100)}_${Date.now()%1000}`;
since `_` never occurs inside a decimal numeral the components are
recoverable from the string, so the string is modelled by the tuple of its
components (string equality coincides with componentwise equality). -/
inductive DetId where
  | gen (cls : ℤ) (rx : ℤ) (ry : ℤ) (ts : ℕ)
deriving DecidableEq

/-- A detection box `[x1, y1, x2, y2]` as stored in `detection.box`
(detect.js line 186). -/
structure DetBox where
  x1 : ℚ
  y1 : ℚ
  x2 : ℚ
  y2 : ℚ
deriving DecidableEq

/-- The reduced per-cycle snapshot kept in `previousDetections`
(detection.js lines 373-383): id, class and box. -/
structure TrackRecord where
  id : DetId
  cls : ℤ
  box : DetBox
deriving DecidableEq

/-- A detection as handed to the tracking pass: box, score, class, and an
optional id (fresh detections from `processFrame` carry none). -/
structure Det where
  box : DetBox
  score : ℚ
  cls : ℤ
  id : Option DetId
deriving DecidableEq

/-- The positional scan of `findMatchingDetection` (detect.js lines 242-258):
first record of the same class whose top-left corner is within the 0.15
threshold in both coordinates wins. -/
def matchScan (d : Det) : List TrackRecord → Option TrackRecord
  | [] => none
  | p :: rest =>
    if p.cls = d.cls ∧ |d.box.x1 - p.box.x1| < (3/20 : ℚ) ∧ |d.box.y1 - p.box.y1| < (3/20 : ℚ)
    then some p
    else matchScan d rest

/-- `findMatchingDetection(detection, previousDetections)` from detect.js
lines 224-262: empty previous list gives no match; a detection that
already carries an id is first looked up by exact id; otherwise (or when
the exact lookup misses) the positional scan runs. -/
def findMatchingDetection (d : Det) (prev : List TrackRecord) : Option TrackRecord :=
  if prev = [] then none
  else
    match d.id with
    | some i =>
      match prev.find? (fun p => decide (p.id = i)) with
      | some m => some m
      | none => matchScan d prev
    | none => matchScan d prev

/-- The id synthesized for a new object (detection.js line 287). -/
def genIdFor (now : ℕ) (d : Det) : DetId :=
  DetId.gen d.cls (jsRound (d.box.x1 * 100)) (jsRound (d.box.y1 * 100)) (now % 1000)

/-- The id assigned in `updateDetectionBoxes` (detection.js lines 280-288):
reuse the matched record's id, otherwise synthesize a new one. -/
def assignId (now : ℕ) (prev : List TrackRecord) (d : Det) : DetId :=
  match findMatchingDetection d prev with
  | some m => m.id
  | none => genIdFor now d

/-- The id-resolution pass over one cycle's detections (the first loop of
`updateDetectionBoxes`).  The previous-cycle records are threaded through
explicitly to model that the JS loop only reads `previousDetections`; the
pass returns them alongside the detections with ids filled in. -/
def assignPass (now : ℕ) (dets : List Det) (prev : List TrackRecord) :
    List Det × List TrackRecord :=
  match dets with
  | [] => ([], prev)
  | d :: rest =>
    let d1 : Det := { d with id := some (assignId now prev d) }
    let res := assignPass now rest prev
    (d1 :: res.1, res.2)

/-- The reduced snapshot taken at the end of `updateDetectionBoxes`
(detection.js lines 373-383); the `det.id || ''` fallback never fires
after the pass since every detection has been given an id. -/
def toRecord (d : Det) : TrackRecord :=
  ⟨d.id.getD (DetId.gen 0 0 0 0), d.cls, d.box⟩

/-- One tracking cycle: assign ids against the previous records, then replace
the records by the snapshot of the current detections. -/
def trackCycle (now : ℕ) (prev : List TrackRecord) (dets : List Det) :
    List Det × List TrackRecord :=
  let res := assignPass now dets prev
  (res.1, res.1.map toRecord)

/-! ## Keyword matching (detection.js line 317) -/

/-- Character-wise lowercasing, modelling JS `toLowerCase`. -/
def lowerStr (s : String) : String := ⟨s.data.map Char.toLower⟩

/-- Does the haystack start with the needle?  (Helper for `jsIncludes`.) -/
def listStartsWith : List Char → List Char → Bool
  | [], _ => true
  | _ :: _, [] => false
  | a :: as, b :: bs => if a = b then listStartsWith as bs else false

/-- JS `String.prototype.includes`: the needle occurs as a contiguous
substring of the haystack. -/
def jsIncludes (needle : List Char) : List Char → Bool
  | [] => listStartsWith needle []
  | c :: t => listStartsWith needle (c :: t) || jsIncludes needle t

/-- detection.js line 317:
`keyword && detection.className.toLowerCase().includes(keyword.toLowerCase())`;
an empty keyword is falsy, so the flag is the truthiness of the conjunction. -/
def isKeywordMatch (kw className : String) : Bool :=
  (if kw = "" then false else true)
    && jsIncludes (lowerStr kw).data (lowerStr className).data

/-! ## Pipeline orchestration (detection.js)

The page is single threaded; its behaviour is the fold of a step function
over the events that can reach the module state: ticks of `detectionLoop`,
settlement of the awaited `processFrame`, the start/stop buttons, the
visibilitychange handler, and `recordFrameTiming`.  `inFlight` counts the
`processFrame` calls that have started and not yet settled — it is the
observable "cycles in flight", not a variable of the JS. -/

/-- Which stage of a cycle failed. -/
inductive StageFail where
  | preprocess
  | inference
deriving DecidableEq

/-- Outcome of `processFrame` (detect.js lines 54-216) given which stages
succeed: a preprocessing throw (invalid model/video, tensor failure) and a
rejection of `model.execute` both propagate out of `processFrame`; an
error while decoding the model output is caught by the inner
`catch` (line 200) and the function returns normally with the empty
detection list. -/
def processFrameModel (preOk infOk decodeOk : Bool) (recs : List TrackRecord) :
    Except StageFail (List TrackRecord) :=
  if !preOk then Except.error StageFail.preprocess
  else if !infOk then Except.error StageFail.inference
  else Except.ok (if decodeOk then recs else [])

/-- Module state of detection.js (lines 17-24) plus the timing window of
detect.js and the in-flight counter. -/
structure PipelineState where
  isDetectionRunning : Bool
  wasRunningBeforeHidden : Bool
  lastDetectionTime : ℚ
  frameTimings : List ℚ
  previousDetections : List TrackRecord
  inFlight : ℕ
deriving DecidableEq

/-- Events that touch the module state. -/
inductive Ev where
  /-- one invocation of `detectionLoop` with its rAF timestamp -/
  | tick (timestamp : ℚ)
  /-- the awaited `processFrame` of an in-flight cycle settles -/
  | cycleEnd (res : Except StageFail (List TrackRecord))
  /-- `startDetection` (button) -/
  | startBtn
  /-- `stopDetection` (button or end of screen share) -/
  | stopBtn
  /-- visibilitychange with `document.hidden` -/
  | pageHidden
  /-- visibilitychange back to visible -/
  | pageVisible
  /-- `recordFrameTiming(t)` (exported by detect.js) -/
  | record (t : ℚ)

/-- The step function.  `tick`: detectionLoop lines 197-209 — return if not
running, skip while `timestamp - lastDetectionTime < getDetectionInterval()`,
otherwise set `lastDetectionTime` and start `processFrame` (no busy flag
is consulted).  `cycleEnd`: the `try/catch` around the await — on success
`updateDetectionBoxes` replaces `previousDetections` with the new
snapshot, on failure line 236 sets `isDetectionRunning = false`.
`startBtn`: lines 143-159.  `stopBtn`: lines 166-189 — stops and clears
`previousDetections`, leaving `frameTimings` untouched.  `pageHidden` /
`pageVisible`: lines 74-85.  `record`: detect.js lines 40-47. -/
def step (s : PipelineState) : Ev → PipelineState
  | Ev.tick timestamp =>
    if !s.isDetectionRunning then s
    else if timestamp - s.lastDetectionTime < getDetectionInterval s.frameTimings then s
    else { s with lastDetectionTime := timestamp, inFlight := s.inFlight + 1 }
  | Ev.cycleEnd res =>
    let s1 := { s with inFlight := s.inFlight - 1 }
    match res with
    | Except.ok recs => { s1 with previousDetections := recs }
    | Except.error _ => { s1 with isDetectionRunning := false }
  | Ev.startBtn =>
    { s with isDetectionRunning := true, previousDetections := [], lastDetectionTime := 0 }
  | Ev.stopBtn =>
    { s with isDetectionRunning := false, previousDetections := [] }
  | Ev.pageHidden =>
    { s with wasRunningBeforeHidden := s.isDetectionRunning, isDetectionRunning := false }
  | Ev.pageVisible =>
    if s.wasRunningBeforeHidden then
      { s with isDetectionRunning := true, lastDetectionTime := 0 }
    else s
  | Ev.record t =>
    { s with frameTimings := recordFrameTiming s.frameTimings t }

/-- Fold a list of events over a state. -/
def runTrace (s : PipelineState) (evs : List Ev) : PipelineState :=
  evs.foldl step s

/-- The state right after page load. -/
def initState : PipelineState :=
  { isDetectionRunning := false
    wasRunningBeforeHidden := false
    lastDetectionTime := 0
    frameTimings := []
    previousDetections := []
    inFlight := 0 }

/-! ## Helper lemmas -/

/-- `Array.prototype.reduce((sum, time) => sum + time, 0)` is the list sum. -/
theorem foldl_add_eq_sum (l : List ℚ) (a : ℚ) :
    l.foldl (fun sum time => sum + time) a = a + l.sum := by
  induction l generalizing a with
  | nil => simp
  | cons x xs ih => simp [List.foldl, ih, List.sum_cons]; ring

/-! ## Claims -/

/-- C1: the suppressor does not implement the claimed reference algorithm.
`processFrame` passes `(100, confidenceThreshold, iouThreshold)` into
`nonMaxSuppressionAsync`'s `(maxOutputSize, iouThreshold, scoreThreshold)`
slots, so the effective score cutoff is 0.45 (strict) and the effective
IoU cutoff is 0.4: a lone candidate of score 0.42 is dropped although the
claim keeps it, and a pair of boxes with IoU 0.42 loses its second member
although the claim keeps both. -/
theorem c1_nms_thresholds_swapped :
    nmsAsCalled [⟨0, 0, 10, 10⟩] [21/50] = []
  ∧ refSuppressor [⟨0, 0, 10, 10⟩] [21/50] = [0]
  ∧ nmsAsCalled [⟨0, 0, 1, 1⟩, ⟨0, 0, 21/50, 1⟩] [9/10, 4/5] = [0]
  ∧ refSuppressor [⟨0, 0, 1, 1⟩, ⟨0, 0, 21/50, 1⟩] [9/10, 4/5] = [0, 1] :=
  ⟨by decide, by decide, by decide, by decide⟩

/-- C2: the single-flight discipline is violated.  `detectionLoop` schedules
the next animation frame before awaiting `processFrame` and consults no
busy flag, so with the default 200ms interval a tick at t=200 starts a
cycle and a tick at t=400 starts a second one while the first is still
pending: two cycles in flight at once. -/
theorem c2_second_cycle_starts_while_first_pending :
    (runTrace initState [Ev.startBtn, Ev.tick 200, Ev.tick 400]).inFlight = 2 := by
  decide

/-- C3: the letterbox transform round-trips.  For every positive frame size,
mapping an original-frame coordinate into model space with the
preprocessor's scale and pads and unpadding it with the mapper's formulas
recovers the coordinate exactly (exact rational arithmetic stands in for
floating point within tolerance). -/
theorem c3_unpad_round_trip (w h : ℕ) (hw : 0 < w) (hh : 0 < h) (ux uy : ℚ) :
    unpadX w h (toModelX w h ux) = ux ∧ unpadY w h (toModelY w h uy) = uy := by
  have hw' : (0 : ℚ) < (w : ℚ) := by exact_mod_cast hw
  have hh' : (0 : ℚ) < (h : ℚ) := by exact_mod_cast hh
  have hs : 0 < scaleFor w h :=
    lt_min (div_pos (by norm_num) hw') (div_pos (by norm_num) hh')
  constructor
  · unfold unpadX toModelX
    rw [add_sub_cancel_right]
    exact mul_div_cancel_right₀ ux hs.ne'
  · unfold unpadY toModelY
    rw [add_sub_cancel_right]
    exact mul_div_cancel_right₀ uy hs.ne'

/-- Witness for C3 at the spec's own scenario frame 1280×720. -/
theorem c3_unpad_round_trip_w :
    0 < 1280 ∧ 0 < 720
  ∧ (unpadX 1280 720 (toModelX 1280 720 10) = 10
     ∧ unpadY 1280 720 (toModelY 1280 720 20) = 20) :=
  ⟨by decide, by decide, c3_unpad_round_trip 1280 720 (by decide) (by decide) 10 20⟩

/-- C4: tracker identity across two consecutive cycles with one object.  If
the class is unchanged and the top-left corner moved by less than 0.15 in
both coordinates, the second cycle reuses the first cycle's id; if the
class changed at the same position, the second cycle produces a new id. -/
theorem c4_tracker_identity (c1 c2 : ℤ) (b1 b2 : DetBox) (s1 s2 : ℚ) (t1 t2 : ℕ) :
    (c2 = c1 → |b2.x1 - b1.x1| < (3/20 : ℚ) → |b2.y1 - b1.y1| < (3/20 : ℚ) →
      assignId t2 (trackCycle t1 [] [⟨b1, s1, c1, none⟩]).2 ⟨b2, s2, c2, none⟩
        = assignId t1 [] ⟨b1, s1, c1, none⟩)
  ∧ (c2 ≠ c1 → b2 = b1 →
      assignId t2 (trackCycle t1 [] [⟨b1, s1, c1, none⟩]).2 ⟨b2, s2, c2, none⟩
        ≠ assignId t1 [] ⟨b1, s1, c1, none⟩) := by
  have hprev : (trackCycle t1 [] [⟨b1, s1, c1, none⟩]).2
      = [⟨genIdFor t1 ⟨b1, s1, c1, none⟩, c1, b1⟩] := by
    simp [trackCycle, assignPass, assignId, findMatchingDetection, toRecord]
  constructor
  · intro hc hx hy
    subst hc
    rw [hprev]
    simp [assignId, findMatchingDetection, matchScan, hx, hy]
  · intro hc hb
    subst hb
    rw [hprev]
    simp [assignId, findMatchingDetection, matchScan, genIdFor, hc, Ne.symm hc]

/-- Witness for C4: same class moving 0.1 keeps the id, a class change at the
same position gets a fresh id. -/
theorem c4_tracker_identity_w :
    assignId 7 (trackCycle 3 [] [⟨⟨0, 0, 1, 1⟩, 1/2, 1, none⟩]).2 ⟨⟨1/10, 0, 1, 1⟩, 1/2, 1, none⟩
      = assignId 3 [] ⟨⟨0, 0, 1, 1⟩, 1/2, 1, none⟩
  ∧ assignId 7 (trackCycle 3 [] [⟨⟨0, 0, 1, 1⟩, 1/2, 1, none⟩]).2 ⟨⟨0, 0, 1, 1⟩, 1/2, 2, none⟩
      ≠ assignId 3 [] ⟨⟨0, 0, 1, 1⟩, 1/2, 1, none⟩ :=
  ⟨(c4_tracker_identity 1 1 ⟨0, 0, 1, 1⟩ ⟨1/10, 0, 1, 1⟩ (1/2) (1/2) 3 7).1 rfl
      (by decide) (by decide),
   (c4_tracker_identity 1 2 ⟨0, 0, 1, 1⟩ ⟨0, 0, 1, 1⟩ (1/2) (1/2) 3 7).2 (by decide) rfl⟩

/-- C5: the scheduler returns the 200ms fallback below five samples, and the
clamped 1.2-scaled mean otherwise; five samples of 100 give 120. -/
theorem c5_scheduler_interval (ts : List ℚ) :
    (ts.length < 5 → getDetectionInterval ts = 200)
  ∧ (5 ≤ ts.length →
      getDetectionInterval ts
        = max 0 (min 500 (ts.sum / (ts.length : ℚ) * (6/5 : ℚ)))
      ∧ 0 ≤ getDetectionInterval ts ∧ getDetectionInterval ts ≤ 500)
  ∧ getDetectionInterval (List.replicate 5 (100 : ℚ)) = 120 := by
  refine ⟨fun hlt => ?_, fun hge => ?_, by decide⟩
  · unfold getDetectionInterval
    rw [if_neg (by omega)]
  · have hval : getDetectionInterval ts
        = max 0 (min 500 (ts.sum / (ts.length : ℚ) * (6/5 : ℚ))) := by
      unfold getDetectionInterval
      rw [if_pos hge]
      simp only [foldl_add_eq_sum, zero_add]
    refine ⟨hval, ?_, ?_⟩
    · rw [hval]; exact le_max_left _ _
    · rw [hval]
      exact max_le (by norm_num) (min_le_left _ _)

/-- Witness for C5: the empty window falls back to 200, and a five-sample
window takes the clamped scaled mean. -/
theorem c5_scheduler_interval_w :
    (([] : List ℚ).length < 5 ∧ getDetectionInterval [] = 200)
  ∧ (5 ≤ ([100, 100, 100, 100, 100] : List ℚ).length
     ∧ getDetectionInterval [100, 100, 100, 100, 100]
        = max 0 (min 500 (([100, 100, 100, 100, 100] : List ℚ).sum
            / (([100, 100, 100, 100, 100] : List ℚ).length : ℚ) * (6/5 : ℚ)))) :=
  ⟨⟨by decide, (c5_scheduler_interval []).1 (by decide)⟩,
   ⟨by decide, ((c5_scheduler_interval [100, 100, 100, 100, 100]).2.1 (by decide)).1⟩⟩

/-- C6: error handling is asymmetric.  A cycle whose preprocessing or
inference stage failed settles as an error and the catch in
`detectionLoop` stops the pipeline; a decode failure is swallowed inside
`processFrame`, the cycle settles normally with an empty detection list,
and the pipeline keeps running. -/
theorem c6_error_asymmetry (s : PipelineState) (recs : List TrackRecord)
    (hrun : s.isDetectionRunning = true) :
    (step s (Ev.cycleEnd (processFrameModel false true true recs))).isDetectionRunning = false
  ∧ (step s (Ev.cycleEnd (processFrameModel true false true recs))).isDetectionRunning = false
  ∧ processFrameModel true true false recs = Except.ok []
  ∧ (step s (Ev.cycleEnd (processFrameModel true true false recs))).isDetectionRunning = true :=
  ⟨rfl, rfl, rfl, hrun⟩

/-- Witness for C6 in the running state reached by pressing start. -/
theorem c6_error_asymmetry_w :
    (step (runTrace initState [Ev.startBtn])
        (Ev.cycleEnd (processFrameModel false true true []))).isDetectionRunning = false
  ∧ (step (runTrace initState [Ev.startBtn])
        (Ev.cycleEnd (processFrameModel true false true []))).isDetectionRunning = false
  ∧ processFrameModel true true false ([] : List TrackRecord) = Except.ok []
  ∧ (step (runTrace initState [Ev.startBtn])
        (Ev.cycleEnd (processFrameModel true true false []))).isDetectionRunning = true :=
  c6_error_asymmetry (runTrace initState [Ev.startBtn]) [] rfl

/-- C7 counterexample: `stopDetection` clears `previousDetections` but never
touches the timing window — after recording one 100ms sample and stopping,
the window still holds the sample, while the claim says it is empty. -/
theorem c7_stop_keeps_timing_window_cex :
    (runTrace initState [Ev.startBtn, Ev.record 100, Ev.stopBtn]).frameTimings = [100]
  ∧ ¬ (runTrace initState [Ev.startBtn, Ev.record 100, Ev.stopBtn]).frameTimings = [] := by
  decide

/-- C7 amended: stopping clears the tracker's previous-cycle records (so no
prior id can be matched again) and halts the loop, but leaves the
scheduler's timing window exactly as it was. -/
theorem c7_stop_clears_tracker_only (s : PipelineState) :
    (step s Ev.stopBtn).isDetectionRunning = false
  ∧ (step s Ev.stopBtn).previousDetections = []
  ∧ (step s Ev.stopBtn).frameTimings = s.frameTimings :=
  ⟨rfl, rfl, rfl⟩

/-- C8 counterexample: resuming sets `lastDetectionTime = 0`, so the first
tick after the resume — here 1ms after the previous cycle and far less
than the 200ms interval after the resume itself — immediately starts a
cycle instead of waiting out the interval. -/
theorem c8_resume_immediate_cycle_cex :
    (runTrace initState [Ev.startBtn, Ev.tick 300, Ev.cycleEnd (Except.ok []),
        Ev.pageHidden, Ev.pageVisible]).lastDetectionTime = 0
  ∧ getDetectionInterval (runTrace initState [Ev.startBtn, Ev.tick 300,
        Ev.cycleEnd (Except.ok []), Ev.pageHidden, Ev.pageVisible]).frameTimings = 200
  ∧ (runTrace initState [Ev.startBtn, Ev.tick 300, Ev.cycleEnd (Except.ok []),
        Ev.pageHidden, Ev.pageVisible, Ev.tick 301]).inFlight = 1 := by
  decide

/-- C8 amended: the Paused-to-Running transition resets `lastDetectionTime`
to 0 (not to the resume time), so any tick whose page timestamp is at
least the scheduler interval — i.e. essentially every tick once the page
has been open longer than the interval — starts a cycle immediately after
the resume. -/
theorem c8_resume_resets_clock_to_zero (s : PipelineState) (ts : ℚ)
    (hw : s.wasRunningBeforeHidden = true)
    (hts : getDetectionInterval s.frameTimings ≤ ts) :
    (step s Ev.pageVisible).lastDetectionTime = 0
  ∧ (step s Ev.pageVisible).isDetectionRunning = true
  ∧ (step (step s Ev.pageVisible) (Ev.tick ts)).inFlight = s.inFlight + 1 := by
  have h1 : step s Ev.pageVisible
      = { s with isDetectionRunning := true, lastDetectionTime := 0 } := by
    simp [step, hw]
  refine ⟨by rw [h1], by rw [h1], ?_⟩
  rw [h1]
  simp [step, not_lt.2 hts]

/-- Witness for C8: hide while running, resume, and a tick at page time 500
starts a cycle at once. -/
theorem c8_resume_resets_clock_to_zero_w :
    (step (runTrace initState [Ev.startBtn, Ev.pageHidden]) Ev.pageVisible).lastDetectionTime = 0
  ∧ (step (runTrace initState [Ev.startBtn, Ev.pageHidden]) Ev.pageVisible).isDetectionRunning = true
  ∧ (step (step (runTrace initState [Ev.startBtn, Ev.pageHidden]) Ev.pageVisible)
        (Ev.tick 500)).inFlight
      = (runTrace initState [Ev.startBtn, Ev.pageHidden]).inFlight + 1 :=
  c8_resume_resets_clock_to_zero (runTrace initState [Ev.startBtn, Ev.pageHidden]) 500
    (by decide) (by decide)

/-- C10: the id-resolution pass only reads the previous records (they come
out of the pass unchanged for every input), and a matched record is not
consumed: two distinct detections of the same class, both within the 0.15
threshold of one previous record, are assigned that record's id, so the
emitted set holds a duplicated id. -/
theorem c10_match_is_read_only_and_ids_can_collide :
    (∀ (now : ℕ) (dets : List Det) (prev : List TrackRecord),
      (assignPass now dets prev).2 = prev)
  ∧ findMatchingDetection ⟨⟨1/20, 0, 1, 1⟩, 1/2, 1, none⟩ [⟨DetId.gen 1 0 0 7, 1, ⟨0, 0, 1, 1⟩⟩]
      = some ⟨DetId.gen 1 0 0 7, 1, ⟨0, 0, 1, 1⟩⟩
  ∧ findMatchingDetection ⟨⟨1/10, 0, 1, 1⟩, 1/2, 1, none⟩ [⟨DetId.gen 1 0 0 7, 1, ⟨0, 0, 1, 1⟩⟩]
      = some ⟨DetId.gen 1 0 0 7, 1, ⟨0, 0, 1, 1⟩⟩
  ∧ ((assignPass 5 [⟨⟨1/20, 0, 1, 1⟩, 1/2, 1, none⟩, ⟨⟨1/10, 0, 1, 1⟩, 1/2, 1, none⟩]
        [⟨DetId.gen 1 0 0 7, 1, ⟨0, 0, 1, 1⟩⟩]).1.map (fun d => d.id))
      = [some (DetId.gen 1 0 0 7), some (DetId.gen 1 0 0 7)]
  ∧ (⟨⟨1/20, 0, 1, 1⟩, 1/2, 1, none⟩ : Det) ≠ ⟨⟨1/10, 0, 1, 1⟩, 1/2, 1, none⟩ := by
  refine ⟨fun now dets prev => ?_, by decide, by decide, by decide, by decide⟩
  induction dets with
  | nil => rfl
  | cons d rest ih => simp [assignPass, ih]

/-- `listStartsWith` is correct: the haystack starts with the needle iff the
needle extends to the haystack. -/
theorem listStartsWith_iff (n h : List Char) :
    listStartsWith n h = true ↔ ∃ t, n ++ t = h := by
  induction n generalizing h with
  | nil =>
    simp [listStartsWith]
  | cons a as ih =>
    cases h with
    | nil => simp [listStartsWith]
    | cons b bs =>
      by_cases hab : a = b
      · subst hab
        simp [listStartsWith, ih]
      · simp only [listStartsWith, if_neg hab, List.cons_append, List.cons.injEq]
        constructor
        · intro hfalse
          exact absurd hfalse (by simp)
        · rintro ⟨t, hat, -⟩
          exact absurd hat hab

/-- `jsIncludes` is correct: it returns `true` iff the needle occurs as a
contiguous substring of the haystack. -/
theorem jsIncludes_iff (n h : List Char) :
    jsIncludes n h = true ↔ ∃ p q, p ++ n ++ q = h := by
  induction h with
  | nil =>
    simp only [jsIncludes, listStartsWith_iff]
    constructor
    · rintro ⟨t, ht⟩
      rcases List.append_eq_nil.1 ht with ⟨hn, htt⟩
      exact ⟨[], [], by simp [hn]⟩
    · rintro ⟨p, q, hpq⟩
      rcases List.append_eq_nil.1 hpq with ⟨hpn, hq⟩
      rcases List.append_eq_nil.1 hpn with ⟨-, hn⟩
      exact ⟨[], by simp [hn]⟩
  | cons c t ih =>
    simp only [jsIncludes, Bool.or_eq_true, listStartsWith_iff, ih]
    constructor
    · rintro (⟨q, hq⟩ | ⟨p, q, hpq⟩)
      · exact ⟨[], q, by simp [hq]⟩
      · exact ⟨c :: p, q, by simp [hpq]⟩
    · rintro ⟨p, q, hpq⟩
      cases p with
      | nil =>
        exact Or.inl ⟨q, by simpa using hpq⟩
      | cons c0 p0 =>
        rcases List.cons.inj (by simpa using hpq) with ⟨-, hrest⟩
        exact Or.inr ⟨p0, q, by simp [hrest]⟩

/-- C9: the keyword flag is truthy exactly when the configured keyword is
non-empty and the lowercased class name contains the lowercased keyword as
a contiguous substring (so a keyword occurring anywhere inside an
unrelated class name still matches). -/
theorem c9_keyword_match_iff (kw cn : String) :
    isKeywordMatch kw cn = true ↔
      (kw ≠ "" ∧ ∃ p q, p ++ (lowerStr kw).data ++ q = (lowerStr cn).data) := by
  unfold isKeywordMatch
  by_cases hkw : kw = ""
  · simp [hkw]
  · simp [hkw, jsIncludes_iff]
